import Mathlib

/-!
Verification of the MSRW scheduled-task execution engine.

Shallow embedding of the two source files that implement the engine:
  * src/scheduler/InternalScheduler.ts (class InternalScheduler)
  * src/util/core/Retry.ts            (class Retry)

Modelling conventions:
  * JavaScript numbers are rationals (ℚ); `Math.floor` is `Int.floor` on ℚ.
  * `Math.random()` draws are made explicit as ℚ parameters (u ∈ [0,1)),
    so every function is deterministic given its random source.
  * The async task callback is an oracle `results : Nat → Bool`
    (invocation index ↦ did this invocation succeed), resp.
    `fnRes : Nat → Option JsVal` for Retry.run (none = resolved,
    some e = rejected with value e).
  * JavaScript is single-threaded: control can only change hands at an
    `await`.  A run is therefore modelled as a trace whose suspension
    points (task invocations and backoff sleeps) record the value of the
    `isRunning` flag at that point; a competing firing can only be
    interleaved at such a point.
  * Strings are Lean `String`s; the character-level processing
    (regex match, trim, split) is implemented on `List Char`.
-/

namespace MSRW

/-! ### JavaScript values -/

/-- A JavaScript number as found in a config field: either a finite value
or one of the non-finite sentinels (`NaN`, `±Infinity`). -/
inductive JsNum where
  | num (q : ℚ)
  | nan
  | inf
  | negInf
deriving DecidableEq

/-- `Number.isFinite`. -/
def JsNum.isFinite : JsNum → Bool
  | .num _ => true
  | _ => false

/-- `Number(v)` of a value already known to be finite (the only way the
source reads the numeric payload). -/
def JsNum.toQ : JsNum → ℚ
  | .num q => q
  | _ => 0

/-- A JavaScript value thrown by the task callback: either an `Error`
object carrying a message, or any other value together with its
`String(v)` rendering. -/
inductive JsVal where
  | errObj (msg : String)
  | rawVal (s : String)
deriving DecidableEq

/-- `e instanceof Error ? e : new Error(String(e))` (Retry.ts line 78). -/
def wrapErr : JsVal → JsVal
  | .errObj m => .errObj m
  | .rawVal s => .errObj s

/-! ### Configuration (src/interface/Config.ts as consumed by the scheduler) -/

/-- `scheduling.jitter` block.  All three fields are optional in the
config file. -/
structure JitterCfg where
  enabled : Option Bool
  minMinutesBefore : Option JsNum
  maxMinutesAfter : Option JsNum

/-- `config.scheduling`.  `cronSchedule` models the optional chain
`scheduling.cron?.schedule` (absent whenever either level is absent). -/
structure SchedulingCfg where
  enabled : Bool
  time : Option String
  cronSchedule : Option String
  jitter : Option JitterCfg

/-- `config.crashRecovery` as read by the scheduler's retry loop. -/
structure CrashRecoveryCfg where
  maxRestarts : Option Nat
  backoffBaseMs : Option ℚ

structure Config where
  scheduling : Option SchedulingCfg
  crashRecovery : Option CrashRecoveryCfg

/-- The mutable fields of InternalScheduler that the claims mention:
`cronJob` (the armed trigger handle, `null` when never started or
stopped) and the overlap guard `isRunning`. -/
structure EngineState where
  cronJob : Option String
  isRunning : Bool

/-! ### Minute wrap-around (InternalScheduler.ts lines 128-131)

The source normalises `totalMinutes` with two `while` loops:
`while (totalMinutes < 0) totalMinutes += minutesInDay` and
`while (totalMinutes >= minutesInDay) totalMinutes -= minutesInDay`.
Each loop is embedded with an explicit iteration budget that is proved
large enough below, so the definitions stay structurally recursive and
executable. -/

def addLoop : Nat → Int → Int
  | 0, t => t
  | f + 1, t => if t < 0 then addLoop f (t + 1440) else t

def subLoop : Nat → Int → Int
  | 0, t => t
  | f + 1, t => if 1440 ≤ t then subLoop f (t - 1440) else t

def wrapMinutes (t : Int) : Int :=
  let t1 := addLoop (t.natAbs + 1) t
  subLoop (t1.toNat + 1) t1

/-! ### Random integer draw (InternalScheduler.ts lines 139-143) -/

/-- `getRandomInt(min, max)` with the `Math.random()` draw made explicit
as `u`: `Math.floor(Math.random() * (max - min + 1)) + min` after
`min = Math.ceil(minInclusive)`, `max = Math.floor(maxInclusive)`. -/
def getRandomInt (minInclusive maxInclusive : ℚ) (u : ℚ) : Int :=
  let mn := ⌈minInclusive⌉
  let mx := ⌊maxInclusive⌋
  ⌊u * ((mx : ℚ) - (mn : ℚ) + 1)⌋ + mn

/-! ### Jitter (InternalScheduler.ts lines 115-137) -/

/-- `Number.isFinite(v) ? Number(v) : dflt` on an optional field. -/
def effBound (v : Option JsNum) (dflt : ℚ) : ℚ :=
  match v with
  | some w => if w.isFinite then w.toQ else dflt
  | none => dflt

/-- The `before`/`after` window bounds computed on lines 117-118
(defaults 20 and 30). -/
def jitterWindow (j : Option JitterCfg) : ℚ × ℚ :=
  (effBound (j.bind (fun c => c.minMinutesBefore)) 20,
   effBound (j.bind (fun c => c.maxMinutesAfter)) 30)

structure JitterOut where
  hour : Nat
  minute : Nat
  offsetMinutes : Int
deriving DecidableEq

/-- `applyJitter(hour, minute, jitter)` with the random draw explicit. -/
def applyJitter (hour minute : Nat) (j : Option JitterCfg) (u : ℚ) : JitterOut :=
  let enabled := (j.bind (fun c => c.enabled)).getD false
  let before := (jitterWindow j).1
  let after := (jitterWindow j).2
  if enabled = false ∨ (before = 0 ∧ after = 0) then
    ⟨hour, minute, 0⟩
  else
    let offset := getRandomInt (-|before|) |after| u
    let total := wrapMinutes ((hour : Int) * 60 + minute + offset)
    ⟨total.toNat / 60, total.toNat % 60, offset⟩

/-! ### Time-string parsing (InternalScheduler.ts lines 90-95) -/

def digitVal (c : Char) : Nat := c.toNat - 48

/-- The regex `^(\d{1,2}):(\d{2})$` together with `parseInt` of the two
capture groups: one or two digits, a colon, exactly two digits. -/
def timeMatch : List Char → Option (Nat × Nat)
  | [a, b, c, d] =>
    if a.isDigit ∧ b = ':' ∧ c.isDigit ∧ d.isDigit then
      some (digitVal a, 10 * digitVal c + digitVal d)
    else none
  | [a, a2, b, c, d] =>
    if a.isDigit ∧ a2.isDigit ∧ b = ':' ∧ c.isDigit ∧ d.isDigit then
      some (10 * digitVal a + digitVal a2, 10 * digitVal c + digitVal d)
    else none
  | _ => none

/-- `String.prototype.trim()`. -/
def trimChars (cs : List Char) : List Char :=
  ((cs.dropWhile Char.isWhitespace).reverse.dropWhile Char.isWhitespace).reverse

/-- `s.split(' ')` (keeps empty segments, like JavaScript). -/
def splitOnSpace : List Char → List (List Char)
  | [] => [[]]
  | c :: rest =>
    let r := splitOnSpace rest
    if c = ' ' then [] :: r
    else (c :: r.headD []) :: r.tail

def natOfDigits (cs : List Char) : Nat :=
  cs.foldl (fun a c => 10 * a + digitVal c) 0

/-- `String.prototype.padStart(2, '0')`. -/
def padStart2 (cs : List Char) : List Char :=
  if cs.length = 0 then [Char.ofNat 48, Char.ofNat 48]
  else if cs.length = 1 then Char.ofNat 48 :: cs
  else cs

/-- `extractTimeFromCron` (InternalScheduler.ts lines 148-158). -/
def extractTimeFromCron (e : String) : String :=
  let parts := splitOnSpace e.toList
  if 2 ≤ parts.length then
    let minute := (parts.getD 0 [])
    let hour := (parts.getD 1 [])
    if minute ≠ [] ∧ hour ≠ [] ∧ minute ≠ ['*'] ∧ hour ≠ ['*'] then
      String.mk (padStart2 hour ++ [':'] ++ padStart2 minute)
    else e
  else e

/-! ### Trigger-expression validity

`cron.validate` comes from the third-party node-cron library, which is
not part of this repository. -/

def cronFieldOk (fld : List Char) (lo hi : Nat) : Bool :=
  fld = ['*'] ||
    (decide (fld ≠ []) && fld.all Char.isDigit &&
      decide (lo ≤ natOfDigits fld) && decide (natOfDigits fld ≤ hi))

/-- Modelled from the spec: the TriggerClock validity check ("the
resolved expression must pass a validity check before being handed to
TriggerClock"), i.e. node-cron's `cron.validate`, an external library
not under src/.  Modelled as: five space-separated fields, each either
`*` or an in-range integer (minute 0-59, hour 0-23, day 1-31, month
1-12, weekday 0-7) — enough for every expression the scheduler builds
and for literal daily legacy expressions. -/
def cronValidate (s : String) : Bool :=
  match splitOnSpace s.toList with
  | [mi, hr, dom, mon, dow] =>
    cronFieldOk mi 0 59 && cronFieldOk hr 0 23 && cronFieldOk dom 1 31 &&
      cronFieldOk mon 1 12 && cronFieldOk dow 0 7
  | _ => false

/-! ### Schedule building (InternalScheduler.ts lines 87-113) -/

structure BuildOut where
  cronExpr : Option String
  displayTime : String
  jitterApplied : Int

/-- The template `` `${jitter.minute} ${jitter.hour} * * *` ``. -/
def mkCronExpr (minute hour : Nat) : String :=
  toString minute ++ " " ++ toString hour ++ " * * *"

/-- `` `${String(hours).padStart(2, '0')}:${String(minutes).padStart(2, '0')}` ``. -/
def displayHHMM (hours minutes : Nat) : String :=
  String.mk (padStart2 (toString hours).toList ++ [':'] ++ padStart2 (toString minutes).toList)

/-- The default branch of `buildSchedule` (lines 110-112): 9 AM daily
with jitter. -/
def buildScheduleDefault (sc : SchedulingCfg) (u : ℚ) : BuildOut :=
  let jit := applyJitter 9 0 sc.jitter u
  ⟨some (mkCronExpr jit.minute jit.hour), "09:00", jit.offsetMinutes⟩

/-- Priority 2 of `buildSchedule` (lines 106-108): legacy
`cron.schedule` passthrough.  `if (scheduleConfig.cron?.schedule)` is
JavaScript truthiness: an absent or empty string falls through to the
default. -/
def buildScheduleLegacy (sc : SchedulingCfg) (u : ℚ) : BuildOut :=
  match sc.cronSchedule with
  | some cs =>
    if cs = "" then buildScheduleDefault sc u
    else ⟨some cs, extractTimeFromCron cs, 0⟩
  | none => buildScheduleDefault sc u

/-- `buildSchedule` (lines 87-113).  `if (scheduleConfig.time)` is
JavaScript truthiness, so `time = ""` falls through to the legacy /
default branches; a present non-empty `time` that fails the regex or
the 0-23 / 0-59 range check yields `cronExpr = null` without falling
back anywhere.  (Hours and minutes are naturals here, so the `>= 0`
halves of the source's range check are automatic.) -/
def buildSchedule (sc : SchedulingCfg) (u : ℚ) : BuildOut :=
  match sc.time with
  | some s =>
    if s = "" then buildScheduleLegacy sc u
    else
      match timeMatch (trimChars s.toList) with
      | some (hours, minutes) =>
        if hours ≤ 23 ∧ minutes ≤ 59 then
          let jit := applyJitter hours minutes sc.jitter u
          ⟨some (mkCronExpr jit.minute jit.hour), displayHHMM hours minutes, jit.offsetMinutes⟩
        else ⟨none, "", 0⟩
      | none => ⟨none, "", 0⟩
  | none => buildScheduleLegacy sc u

/-- The combined regex-and-range check of lines 90-95, as a predicate on
the raw config string (used to state claims about malformed times). -/
def validTimeFormat (s : String) : Bool :=
  match timeMatch (trimChars s.toList) with
  | some (hh, mm) => decide (hh ≤ 23) && decide (mm ≤ 59)
  | none => false

/-- `start()` (InternalScheduler.ts lines 34-81), up to its boolean
result: fails when scheduling is absent/disabled, when `buildSchedule`
yields no expression, or when the expression fails validation;
otherwise `cron.schedule` is armed (modelled as always succeeding) and
`start` returns true. -/
def start (cfg : Config) (u : ℚ) : Bool :=
  match cfg.scheduling with
  | none => false
  | some sc =>
    if sc.enabled = false then false
    else
      match (buildSchedule sc u).cronExpr with
      | none => false
      | some e => if cronValidate e then true else false

/-! ### The run loop (InternalScheduler.ts lines 163-207)

`runScheduledTask` is a single async function; its observable behaviour
is the trace below.  Suspension points — the only places where another
firing can be interleaved — are the `await this.taskCallback()` and the
backoff `await`.  The `finally { this.isRunning = false }` block runs
when control leaves the try/catch, i.e. *after* the backoff await that
sits inside the catch block, so the flag is still `true` during the
backoff sleep; between the `finally` of one iteration and the
`this.isRunning = true` of the next there is no `await`, hence no
interleaving point. -/

inductive Outcome where
  | skipped
  | succeeded
  | failed
deriving DecidableEq

/-- Observable summary of one call to `runScheduledTask`:
  * `calls`        — number of `taskCallback` invocations;
  * `lastRunSets`  — number of assignments to `this.lastRunTime`;
  * `sleeps`       — backoff delays awaited, in order (ms);
  * `suspFlags`    — value of `isRunning` at each suspension point
                     (task invocations and backoff sleeps), in order;
  * `finalRunning` — value of `isRunning` after the call returns;
  * `reschedCalled` — whether `rescheduleWithJitter()` was invoked. -/
structure RunResult where
  outcome : Outcome
  calls : Nat
  lastRunSets : Nat
  sleeps : List ℚ
  suspFlags : List Bool
  finalRunning : Bool
  reschedCalled : Bool

/-- The `while (attempts <= maxRetries)` loop, driven by the remaining
iteration budget `maxRetries + 1 - attempts` (first argument after the
oracle): each failed iteration increments `attempts`.  `attempts` is
also carried explicitly because the backoff is
`backoffBaseMs * attempts` *after* the increment (line 194). -/
def schedGo (backoffBase : ℚ) (results : Nat → Bool) : Nat → Nat → Nat → RunResult
  | 0, _, _ =>
    -- loop condition false on entry: fall through to the final
    -- rescheduleWithJitter() on line 206 (unreachable from the top,
    -- since attempts starts at 0 ≤ maxRetries)
    ⟨.failed, 0, 0, [], [], false, true⟩
  | 1, _, callIdx =>
    -- last permitted iteration: isRunning := true, lastRunTime := now,
    -- await task (flag true at the suspension)
    if results callIdx then
      ⟨.succeeded, 1, 1, [], [true], false, true⟩
    else
      -- attempts now exceeds maxRetries: log, finally clears the flag,
      -- loop exits, rescheduleWithJitter() on line 206
      ⟨.failed, 1, 1, [], [true], false, true⟩
  | r + 2, attempts, callIdx =>
    if results callIdx then
      ⟨.succeeded, 1, 1, [], [true], false, true⟩
    else
      -- failure with retries left: backoff await inside the catch
      -- (flag still true), then finally clears the flag and the loop
      -- re-enters, setting it again with no await in between
      let backoff := backoffBase * ((attempts : ℚ) + 1)
      let rest := schedGo backoffBase results (r + 1) (attempts + 1) (callIdx + 1)
      ⟨rest.outcome, rest.calls + 1, rest.lastRunSets + 1, backoff :: rest.sleeps,
        true :: true :: rest.suspFlags, rest.finalRunning, rest.reschedCalled⟩

/-- `runScheduledTask` (lines 163-207): the overlap guard check on line
165, then the retry loop. -/
def runScheduledTask (maxRetries : Nat) (backoffBase : ℚ) (isRunning : Bool)
    (results : Nat → Bool) : RunResult :=
  if isRunning then ⟨.skipped, 0, 0, [], [], true, false⟩
  else schedGo backoffBase results (maxRetries + 1) 0 0

/-- `this.config.crashRecovery?.maxRestarts ?? 1` (line 170). -/
def cfgMaxRetries (c : Config) : Nat :=
  (c.crashRecovery.bind (fun r => r.maxRestarts)).getD 1

/-- `this.config.crashRecovery?.backoffBaseMs ?? 2000` (line 194). -/
def cfgBackoffBase (c : Config) : ℚ :=
  (c.crashRecovery.bind (fun r => r.backoffBaseMs)).getD 2000

/-- `runScheduledTask` at the engine level: the loop above applied to
the configured retry parameters and the current overlap-guard value.
Note that no other part of the configuration or engine state (armed
trigger, enabled flag, ...) is consulted before invoking the task. -/
def runScheduledTaskE (c : Config) (st : EngineState) (results : Nat → Bool) : RunResult :=
  runScheduledTask (cfgMaxRetries c) (cfgBackoffBase c) st.isRunning results

/-- `triggerNow()` (lines 348-351): logs and delegates unconditionally
to `runScheduledTask`. -/
def triggerNow (c : Config) (st : EngineState) (results : Nat → Bool) : RunResult :=
  runScheduledTaskE c st results

/-! ### Retry.run (src/util/core/Retry.ts lines 58-79) -/

/-- The numeric policy after the constructor's normalisation. -/
structure NumericPolicy where
  maxAttempts : Nat
  baseDelay : ℚ
  maxDelay : ℚ
  multiplier : ℚ
  jitter : ℚ

structure RetryOut where
  result : Except JsVal Unit
  calls : Nat
  sleeps : List ℚ

/-- Lines 72-73: `jitter = 1 + (Math.random() * 2 - 1) * this.policy.jitter`;
`sleep = Math.min(maxDelay, Math.max(0, Math.floor(delay * jitter)))`. -/
def retrySleep (p : NumericPolicy) (delay u : ℚ) : ℚ :=
  let jfac := 1 + (u * 2 - 1) * p.jitter
  min p.maxDelay (max 0 ((⌊delay * jfac⌋ : ℤ) : ℚ))

/-- Line 75: `delay = Math.min(maxDelay, Math.floor(delay * (multiplier || 2)))`. -/
def retryNextDelay (p : NumericPolicy) (delay : ℚ) : ℚ :=
  min p.maxDelay ((⌊delay * (if p.multiplier = 0 then 2 else p.multiplier)⌋ : ℤ) : ℚ)

/-- The value of the `delay` variable at the start of the k-th loop
iteration (0-based): `baseDelay` initially (line 60), updated by line 75
after each awaited backoff.  This is the pre-jitter backoff delay for
the sleep after attempt k+1. -/
def retryDelay (p : NumericPolicy) : Nat → ℚ
  | 0 => p.baseDelay
  | k + 1 => retryNextDelay p (retryDelay p k)

/-- The `while (attempt < this.policy.maxAttempts)` loop, driven by the
remaining budget `maxAttempts - attempt` (the argument after `us`);
`attempt` itself is carried for the oracle indices.  With budget 1 a
failure breaks out of the loop whichever value `isRetryable` returns
(`!retry || attempt >= maxAttempts` is then true either way), producing
the same thrown value, so the two exits are merged. -/
def retryGo (p : NumericPolicy) (fnRes : Nat → Option JsVal)
    (pred : Option (JsVal → Bool)) (us : Nat → ℚ) : Nat → Nat → ℚ → JsVal → RetryOut
  | 0, _, _, lastErr => ⟨.error (wrapErr lastErr), 0, []⟩
  | 1, attempt, _, _ =>
    match fnRes attempt with
    | none => ⟨.ok (), 1, []⟩
    | some e => ⟨.error (wrapErr e), 1, []⟩
  | f + 2, attempt, delay, _ =>
    match fnRes attempt with
    | none => ⟨.ok (), 1, []⟩
    | some e =>
      if (match pred with | some g => g e | none => true) then
        let rest := retryGo p fnRes pred us (f + 1) (attempt + 1) (retryNextDelay p delay) e
        ⟨rest.result, rest.calls + 1, retrySleep p delay (us attempt) :: rest.sleeps⟩
      else ⟨.error (wrapErr e), 1, []⟩

/-- `Retry.run(fn, isRetryable)`: `attempt = 0`, `delay = baseDelay`,
`lastErr` initially `undefined` (so with `maxAttempts = 0` the function
throws `new Error(String(undefined))`). -/
def retryRun (p : NumericPolicy) (fnRes : Nat → Option JsVal)
    (pred : Option (JsVal → Bool)) (us : Nat → ℚ) : RetryOut :=
  retryGo p fnRes pred us p.maxAttempts 0 p.baseDelay (.rawVal "undefined")

/-- Follows the spec's words (section 4.3 BackoffPolicy, claim C2): the
nominal delay before attempt `attemptIndex + 1` is
`baseDelay * multiplier^(attemptIndex-1)` clamped to `maxDelay`.  Stated
for comparison with the scheduler's actual (linear) backoff. -/
def specNominalDelay (baseDelay multiplier maxDelay : ℚ) (attemptIndex : Nat) : ℚ :=
  min maxDelay (baseDelay * multiplier ^ (attemptIndex - 1))

/-! ## Correctness of the fuelled wrap loops -/

theorem addLoop_emod (f : Nat) : ∀ t : Int, addLoop f t % 1440 = t % 1440 := by
  induction f with
  | zero => intro t; rfl
  | succ f ih =>
    intro t
    simp only [addLoop]
    split_ifs with ht
    · rw [ih]; omega
    · rfl

theorem addLoop_nonneg (f : Nat) : ∀ t : Int, -(1440 * (f : Int)) ≤ t → 0 ≤ addLoop f t := by
  induction f with
  | zero => intro t h; simp only [addLoop]; omega
  | succ f ih =>
    intro t h
    simp only [addLoop]
    split_ifs with ht
    · refine ih _ ?_
      have : ((f + 1 : Nat) : Int) = (f : Int) + 1 := by push_cast; ring
      omega
    · omega

theorem subLoop_emod (f : Nat) : ∀ t : Int, subLoop f t % 1440 = t % 1440 := by
  induction f with
  | zero => intro t; rfl
  | succ f ih =>
    intro t
    simp only [subLoop]
    split_ifs with ht
    · rw [ih]; omega
    · rfl

theorem subLoop_nonneg (f : Nat) : ∀ t : Int, 0 ≤ t → 0 ≤ subLoop f t := by
  induction f with
  | zero => intro t h; simpa [subLoop] using h
  | succ f ih =>
    intro t h
    simp only [subLoop]
    split_ifs with ht
    · exact ih _ (by omega)
    · exact h

theorem subLoop_lt (f : Nat) : ∀ t : Int, t < 1440 * (f : Int) + 1440 → subLoop f t < 1440 := by
  induction f with
  | zero => intro t h; simp only [subLoop]; omega
  | succ f ih =>
    intro t h
    simp only [subLoop]
    split_ifs with ht
    · refine ih _ ?_
      have : ((f + 1 : Nat) : Int) = (f : Int) + 1 := by push_cast; ring
      omega
    · omega

/-- The iteration budgets chosen in `wrapMinutes` are large enough: the
two while loops of lines 128-131 together compute the residue modulo
1440. -/
theorem wrapMinutes_eq_emod (t : Int) : wrapMinutes t = t % 1440 := by
  have h0 : 0 ≤ addLoop (t.natAbs + 1) t := by
    refine addLoop_nonneg _ t ?_
    have : ((t.natAbs + 1 : Nat) : Int) = (t.natAbs : Int) + 1 := by push_cast; ring
    omega
  have h1 : addLoop (t.natAbs + 1) t % 1440 = t % 1440 := addLoop_emod _ t
  have h2 : subLoop ((addLoop (t.natAbs + 1) t).toNat + 1) (addLoop (t.natAbs + 1) t) < 1440 := by
    refine subLoop_lt _ _ ?_
    have : (((addLoop (t.natAbs + 1) t).toNat + 1 : Nat) : Int)
        = ((addLoop (t.natAbs + 1) t).toNat : Int) + 1 := by push_cast; ring
    omega
  have h3 : 0 ≤ subLoop ((addLoop (t.natAbs + 1) t).toNat + 1) (addLoop (t.natAbs + 1) t) :=
    subLoop_nonneg _ _ h0
  have h4 : subLoop ((addLoop (t.natAbs + 1) t).toNat + 1) (addLoop (t.natAbs + 1) t) % 1440
      = addLoop (t.natAbs + 1) t % 1440 := subLoop_emod _ _
  show subLoop ((addLoop (t.natAbs + 1) t).toNat + 1) (addLoop (t.natAbs + 1) t) = t % 1440
  omega

/-! ## Claim C5 -/

/-- C5: for every valid base time (hour 0-23, minute 0-59) and every
drawn jitter offset, the jittered hour/minute pair produced by schedule
resolution, converted back to minutes-of-day, equals
(base + offset) mod 1440, with the resulting hour in [0,23] and minute
in [0,59]; in particular a negative offset that crosses midnight wraps
to the end of the day. -/
theorem jitter_wraps_midnight (hr mi : Nat) (j : Option JitterCfg) (u : ℚ)
    (hhr : hr ≤ 23) (hmi : mi ≤ 59) :
    ((applyJitter hr mi j u).hour * 60 + (applyJitter hr mi j u).minute : Int)
      = ((hr : Int) * 60 + mi + (applyJitter hr mi j u).offsetMinutes) % 1440 ∧
    (applyJitter hr mi j u).hour ≤ 23 ∧ (applyJitter hr mi j u).minute ≤ 59 := by
  simp only [applyJitter]
  split_ifs with hcond
  · simp only
    omega
  · simp only
    have hw := wrapMinutes_eq_emod
      ((hr : Int) * 60 + mi + getRandomInt (-|(jitterWindow j).1|) |(jitterWindow j).2| u)
    omega

/-- Witness for C5 at the claim's own midnight-wrap example: base 00:10
with drawn offset -20 (the draw u = 0 of a window 20 before / 30 after)
yields 23:50. -/
theorem jitter_wraps_midnight_witness :
    ((applyJitter 0 10 (some ⟨some true, some (.num 20), some (.num 30)⟩) 0).hour * 60
        + (applyJitter 0 10 (some ⟨some true, some (.num 20), some (.num 30)⟩) 0).minute : Int)
      = ((0 : Int) * 60 + 10
        + (applyJitter 0 10 (some ⟨some true, some (.num 20), some (.num 30)⟩) 0).offsetMinutes) % 1440 ∧
    applyJitter 0 10 (some ⟨some true, some (.num 20), some (.num 30)⟩) 0 = ⟨23, 50, -20⟩ := by
  constructor
  · exact (jitter_wraps_midnight 0 10 (some ⟨some true, some (.num 20), some (.num 30)⟩) 0
      (by decide) (by decide)).1
  · have hc : (⌈(-20 : ℚ)⌉ : ℤ) = -20 := by
      rw [show ((-20 : ℚ)) = ((-20 : ℤ) : ℚ) by norm_num, Int.ceil_intCast]
    have hf : (⌊(30 : ℚ)⌋ : ℤ) = 30 := by
      rw [show ((30 : ℚ)) = ((30 : ℤ) : ℚ) by norm_num, Int.floor_intCast]
    norm_num [applyJitter, jitterWindow, effBound, JsNum.isFinite, JsNum.toQ, getRandomInt,
      hc, hf, Int.floor_zero]
    decide

/-! ## Claim C9 -/

/-- C9: when jitter is enabled but minMinutesBefore or maxMinutesAfter
is absent or not a finite number, schedule resolution substitutes
default window bounds of 20 minutes before and 30 minutes after, and
always takes absolute values so a negative configured bound behaves
like its magnitude. -/
theorem jitter_defaults_and_abs (j : JitterCfg) (hr mi : Nat) (u q : ℚ) :
    jitterWindow none = (20, 30) ∧
    (jitterWindow (some { j with minMinutesBefore := none })).1 = 20 ∧
    (jitterWindow (some { j with minMinutesBefore := some .nan })).1 = 20 ∧
    (jitterWindow (some { j with minMinutesBefore := some .inf })).1 = 20 ∧
    (jitterWindow (some { j with maxMinutesAfter := none })).2 = 30 ∧
    (jitterWindow (some { j with maxMinutesAfter := some .nan })).2 = 30 ∧
    (jitterWindow (some { j with maxMinutesAfter := some .negInf })).2 = 30 ∧
    applyJitter hr mi (some { j with minMinutesBefore := some (.num q) }) u
      = applyJitter hr mi (some { j with minMinutesBefore := some (.num |q|) }) u ∧
    applyJitter hr mi (some { j with maxMinutesAfter := some (.num q) }) u
      = applyJitter hr mi (some { j with maxMinutesAfter := some (.num |q|) }) u := by
  refine ⟨rfl, rfl, rfl, rfl, rfl, rfl, rfl, ?_, ?_⟩
  · simp [applyJitter, jitterWindow, effBound, JsNum.isFinite, JsNum.toQ, abs_abs, abs_eq_zero]
  · simp [applyJitter, jitterWindow, effBound, JsNum.isFinite, JsNum.toQ, abs_abs, abs_eq_zero]

/-! ## Claim C4 -/

/-- A present, non-empty `time` that fails the regex/range check makes
`buildSchedule` return a null expression — it never falls through to
the legacy branch. -/
theorem buildSchedule_malformed (sc : SchedulingCfg) (s : String) (u : ℚ)
    (h2 : sc.time = some s) (h3 : s ≠ "") (h4 : validTimeFormat s = false) :
    (buildSchedule sc u).cronExpr = none := by
  unfold buildSchedule
  rw [h2]
  simp only [if_neg h3]
  unfold validTimeFormat at h4
  cases htm : timeMatch (trimChars s.toList) with
  | none => simp [htm]
  | some pr =>
    obtain ⟨hh, mm⟩ := pr
    rw [htm] at h4
    by_cases hrange : hh ≤ 23 ∧ mm ≤ 59
    · simp [hrange] at h4
    · simp [htm, hrange]

/-- C4 (amended): for every ScheduleSpec whose dailyTime is present and
non-empty but malformed (fails the HH:MM regex or the hour/minute range
check), resolution yields no trigger expression and start() returns
false, even when a legacy cron expression is also present.  (A present
but *empty* dailyTime is falsy in JavaScript and falls through to the
legacy expression — see the counterexample.) -/
theorem malformed_time_fails_closed (cfg : Config) (sc : SchedulingCfg) (s : String) (u : ℚ)
    (h1 : cfg.scheduling = some sc) (h2 : sc.time = some s) (h3 : s ≠ "")
    (h4 : validTimeFormat s = false) :
    start cfg u = false := by
  unfold start
  rw [h1]
  have hb := buildSchedule_malformed sc s u h2 h3 h4
  cases hsc : sc.enabled with
  | false => simp [hsc]
  | true => simp [hsc, hb]

/-- Witness for C4 (amended): dailyTime "25:00" fails the range check,
and start() returns false although a valid legacy expression is
present. -/
theorem malformed_time_fails_closed_witness :
    validTimeFormat "25:00" = false ∧
    start ⟨some ⟨true, some "25:00", some "0 9 * * *", none⟩, none⟩ 0 = false :=
  ⟨by decide,
   malformed_time_fails_closed ⟨some ⟨true, some "25:00", some "0 9 * * *", none⟩, none⟩
     ⟨true, some "25:00", some "0 9 * * *", none⟩ "25:00" 0 rfl rfl (by decide) (by decide)⟩

/-- Counterexample to C4 as stated: dailyTime = "" is present and fails
the HH:MM regex, a legacy expression is also present, yet start()
succeeds — the empty string is falsy, so the code falls back to the
legacy expression instead of failing with InvalidScheduleFormat. -/
theorem empty_time_falls_back_cex :
    start ⟨some ⟨true, some "", some "0 9 * * *", none⟩, none⟩ 0 = true ∧
    validTimeFormat "" = false := by
  constructor
  · decide
  · decide

/-! ## Run-loop invariants -/

/-- Trace invariants of the retry loop, for any iteration budget
actually reached (the budget is positive at the top-level call):
the `isRunning` flag is true at every suspension point, it is false
after the loop returns, `rescheduleWithJitter` is reached on every
exit path, and `lastRunTime` is assigned exactly once per task
invocation. -/
theorem schedGo_invariants (bB : ℚ) (res : Nat → Bool) :
    ∀ r a ci, ((schedGo bB res (r + 1) a ci).suspFlags.all (fun b => b)) = true ∧
      (schedGo bB res (r + 1) a ci).finalRunning = false ∧
      (schedGo bB res (r + 1) a ci).reschedCalled = true ∧
      (schedGo bB res (r + 1) a ci).lastRunSets = (schedGo bB res (r + 1) a ci).calls := by
  intro r
  induction r with
  | zero =>
    intro a ci
    by_cases h : res ci <;> simp [schedGo, h]
  | succ r ih =>
    intro a ci
    by_cases h : res ci
    · simp [schedGo, h]
    · obtain ⟨i1, i2, i3, i4⟩ := ih (a + 1) (ci + 1)
      simp [schedGo, h, i1, i2, i3, i4]

theorem schedGo_calls_pos (bB : ℚ) (res : Nat → Bool) (r a ci : Nat) :
    1 ≤ (schedGo bB res (r + 1) a ci).calls := by
  cases r with
  | zero => by_cases h : res ci <;> simp [schedGo, h]
  | succ r => by_cases h : res ci <;> simp [schedGo, h]

/-- With an always-failing task the loop performs exactly
`budget` = maxRetries + 1 invocations and ends in failure. -/
theorem schedGo_allFail (bB : ℚ) : ∀ r a ci,
    (schedGo bB (fun _ => false) (r + 1) a ci).calls = r + 1 ∧
    (schedGo bB (fun _ => false) (r + 1) a ci).outcome = .failed := by
  intro r
  induction r with
  | zero => intro a ci; simp [schedGo]
  | succ r ih =>
    intro a ci
    obtain ⟨i1, i2⟩ := ih (a + 1) (ci + 1)
    simp [schedGo, i1, i2]

/-! ## Claim C1 -/

/-- C1: no two task invocations ever run concurrently — a firing
(scheduled or manual) that arrives while the guard is set returns
skipped with zero task invocations; when a run does proceed, the
`isRunning` flag is true at every suspension point (task invocations
and inter-attempt backoff waits, the only places a competing firing can
be interleaved in single-threaded JavaScript), and it is false again
after the run — including its retries — completes. -/
theorem no_concurrent_runs (c : Config) (st : EngineState) (res : Nat → Bool) :
    (runScheduledTaskE c { st with isRunning := true } res).outcome = .skipped ∧
    (runScheduledTaskE c { st with isRunning := true } res).calls = 0 ∧
    (triggerNow c { st with isRunning := true } res).outcome = .skipped ∧
    ((runScheduledTaskE c { st with isRunning := false } res).suspFlags.all (fun b => b)) = true ∧
    (runScheduledTaskE c { st with isRunning := false } res).finalRunning = false := by
  refine ⟨rfl, rfl, rfl, ?_, ?_⟩
  · exact (schedGo_invariants (cfgBackoffBase c) res (cfgMaxRetries c) 0 0).1
  · exact (schedGo_invariants (cfgBackoffBase c) res (cfgMaxRetries c) 0 0).2.1

/-! ## Claim C3 -/

/-- Counterexample to C3 as stated: with the default retry settings
(maxRestarts absent, hence 1) and a task that fails both attempts,
`lastRunTime` is assigned twice in a single firing — once at the start
of each attempt — not exactly once. -/
theorem lastRun_set_per_attempt_cex :
    (runScheduledTaskE ⟨none, none⟩ ⟨none, false⟩ (fun _ => false)).lastRunSets = 2 ∧
    ¬ (runScheduledTaskE ⟨none, none⟩ ⟨none, false⟩ (fun _ => false)).lastRunSets = 1 := by
  constructor
  · decide
  · decide

/-- C3 (amended): `lastRunTime` is assigned at the start of every
attempt — exactly once per task invocation (so never at completion
time, but re-assigned at the start of each retry attempt within the
same run). -/
theorem lastRun_once_per_attempt (c : Config) (st : EngineState) (res : Nat → Bool) :
    (runScheduledTaskE c st res).lastRunSets = (runScheduledTaskE c st res).calls := by
  unfold runScheduledTaskE runScheduledTask
  cases hst : st.isRunning
  · simp only [hst, Bool.false_eq_true, if_false]
    exact (schedGo_invariants (cfgBackoffBase c) res (cfgMaxRetries c) 0 0).2.2.2
  · simp [hst]

/-! ## Claim C2 -/

/-- C2: evaluation of the scheduler's retry loop at the failing input
(crashRecovery maxRestarts = 3, backoffBaseMs = 2000, task failing
every attempt): the delays actually awaited are the linear sequence
2000, 4000, 6000 (backoffBaseMs × attempts, no jitter, no maxDelay
clamp), whereas the claimed BackoffPolicy nominal delay before attempt
4 — baseDelay·multiplier^2 clamped to maxDelay, with the repository's
default multiplier 2 and maxDelay 30000 — is 8000 ≠ 6000. -/
theorem scheduler_backoff_linear_eval :
    (runScheduledTask 3 2000 false (fun _ => false)).sleeps = [2000, 4000, 6000] ∧
    specNominalDelay 2000 2 30000 3 = 8000 ∧ ((6000 : ℚ) ≠ 8000) := by
  refine ⟨?_, ?_, ?_⟩
  · simp [runScheduledTask, schedGo]
    norm_num
  · norm_num [specNominalDelay]
  · norm_num

/-! ## Claim C8 -/

/-- C8: `triggerNow` executes the very same run path as a scheduled
firing — in a state whose overlap guard is clear it always invokes the
task at least once and reaches the post-run reschedule, and its result
is independent of whether the scheduler was ever started (no armed
trigger, `scheduling` config absent or arbitrary): only the overlap
guard can prevent the task invocation. -/
theorem manual_trigger_full_path (c c2 : Config) (st : EngineState) (res : Nat → Bool) :
    triggerNow c st res = runScheduledTaskE c st res ∧
    1 ≤ (triggerNow c { st with isRunning := false } res).calls ∧
    (triggerNow c { st with isRunning := false } res).reschedCalled = true ∧
    triggerNow ⟨none, c.crashRecovery⟩ ⟨none, false⟩ res
      = triggerNow ⟨c2.scheduling, c.crashRecovery⟩ ⟨some "0 9 * * *", false⟩ res := by
  refine ⟨rfl, ?_, ?_, rfl⟩
  · exact schedGo_calls_pos (cfgBackoffBase c) res (cfgMaxRetries c) 0 0
  · exact (schedGo_invariants (cfgBackoffBase c) res (cfgMaxRetries c) 0 0).2.2.1

/-! ## Retry.run invariants -/

/-- Every delay actually awaited by `Retry.run` lies in [0, maxDelay]
(given maxDelay ≥ 0): line 73 clamps the jittered value from below by 0
and from above by maxDelay, whatever the jitter draw. -/
theorem retryGo_sleeps_bounded (p : NumericPolicy) (fnRes : Nat → Option JsVal)
    (pred : Option (JsVal → Bool)) (us : Nat → ℚ) (hM : 0 ≤ p.maxDelay) :
    ∀ f a d le, ((retryGo p fnRes pred us f a d le).sleeps.all
      (fun s => decide (0 ≤ s) && decide (s ≤ p.maxDelay))) = true := by
  intro f
  induction f with
  | zero => intro a d le; simp [retryGo]
  | succ f ih =>
    intro a d le
    cases f with
    | zero => cases hres : fnRes a <;> simp [retryGo, hres]
    | succ f2 =>
      cases hres : fnRes a with
      | none => simp [retryGo, hres]
      | some e =>
        by_cases hp : (match pred with | some g => g e | none => true)
        · have hrest := ih (a + 1) (retryNextDelay p d) e
          simp only [retryGo, hres, hp, if_true, List.all_cons, hrest, Bool.and_true]
          simp only [retrySleep, Bool.and_eq_true, decide_eq_true_eq]
          exact ⟨le_min hM (le_max_left _ _), min_le_left _ _⟩
        · simp [retryGo, hres, hp]

/-- When baseDelay and maxDelay are whole-millisecond values with
baseDelay ≤ maxDelay and multiplier ≥ 1, every pre-jitter delay is an
integer in [0, maxDelay]. -/
theorem retryDelay_int (p : NumericPolicy) (b M : Nat) (hmul : 1 ≤ p.multiplier)
    (hb : p.baseDelay = (b : ℚ)) (hM : p.maxDelay = (M : ℚ)) (hbM : b ≤ M) :
    ∀ k, ∃ n : ℤ, retryDelay p k = (n : ℚ) ∧ 0 ≤ n ∧ (n : ℚ) ≤ (M : ℚ) := by
  have hmul0 : ¬ p.multiplier = 0 := by
    intro h; rw [h] at hmul; norm_num at hmul
  intro k
  induction k with
  | zero =>
    refine ⟨(b : ℤ), ?_, ?_, ?_⟩
    · simpa [retryDelay] using hb
    · positivity
    · push_cast
      exact_mod_cast hbM
  | succ k ih =>
    obtain ⟨n, hn, h0, hnM⟩ := ih
    have h1 : (n : ℚ) ≤ (n : ℚ) * p.multiplier :=
      le_mul_of_one_le_right (by exact_mod_cast h0) hmul
    have h2 : (n : ℤ) ≤ ⌊(n : ℚ) * p.multiplier⌋ := Int.le_floor.mpr h1
    refine ⟨min (M : ℤ) ⌊(n : ℚ) * p.multiplier⌋, ?_, ?_, ?_⟩
    · show retryNextDelay p (retryDelay p k) = _
      rw [hn, retryNextDelay, if_neg hmul0, hM]
      push_cast [Int.cast_min]
      ring_nf
    · refine le_min ?_ ?_
      · positivity
      · omega
    · push_cast [Int.cast_min]
      exact min_le_left _ _

/-! ## Claim C6 -/

/-- Counterexample to C6 as stated: the policy
(maxAttempts 3, baseDelay 2000, maxDelay 1000, multiplier 2,
jitterFraction 1/5) satisfies every validity condition the claim lists
(multiplier ≥ 1, baseDelay ≥ 0, maxDelay ≥ 0, jitterFraction ∈ [0,1]),
yet the pre-jitter delay *decreases* from attempt index 1 to attempt
index 2 (2000 to 1000), because the initial `delay = baseDelay` is not
clamped to maxDelay. -/
theorem backoff_not_monotone_cex :
    ((1 : ℚ) ≤ (⟨3, 2000, 1000, 2, 1/5⟩ : NumericPolicy).multiplier) ∧
    ((0 : ℚ) ≤ (⟨3, 2000, 1000, 2, 1/5⟩ : NumericPolicy).baseDelay) ∧
    ((0 : ℚ) ≤ (⟨3, 2000, 1000, 2, 1/5⟩ : NumericPolicy).maxDelay) ∧
    ((0 : ℚ) ≤ (⟨3, 2000, 1000, 2, 1/5⟩ : NumericPolicy).jitter) ∧
    ((⟨3, 2000, 1000, 2, 1/5⟩ : NumericPolicy).jitter ≤ 1) ∧
    retryDelay ⟨3, 2000, 1000, 2, 1/5⟩ 1 < retryDelay ⟨3, 2000, 1000, 2, 1/5⟩ 0 := by
  refine ⟨by norm_num, by norm_num, by norm_num, by norm_num, by norm_num, ?_⟩
  show retryNextDelay ⟨3, 2000, 1000, 2, 1/5⟩ (retryDelay ⟨3, 2000, 1000, 2, 1/5⟩ 0) < 2000
  rw [show retryDelay ⟨3, 2000, 1000, 2, 1/5⟩ 0 = (2000 : ℚ) from rfl]
  rw [retryNextDelay]
  norm_num

/-- C6 (amended): for valid policies whose baseDelay and maxDelay are
whole-millisecond durations with baseDelay ≤ maxDelay and
multiplier ≥ 1, the pre-jitter backoff delay is monotonically
non-decreasing in the attempt index; and every delay actually awaited
after jitter lies within [0, maxDelay] (this bound needs only
maxDelay ≥ 0). -/
theorem backoff_monotone_and_clamped (p : NumericPolicy) (k : Nat)
    (fnRes : Nat → Option JsVal) (pred : Option (JsVal → Bool)) (us : Nat → ℚ)
    (b M : Nat) (hmul : 1 ≤ p.multiplier) (hb : p.baseDelay = (b : ℚ))
    (hM : p.maxDelay = (M : ℚ)) (hbM : b ≤ M) :
    retryDelay p k ≤ retryDelay p (k + 1) ∧
    ((retryRun p fnRes pred us).sleeps.all
      (fun s => decide (0 ≤ s) && decide (s ≤ p.maxDelay))) = true := by
  constructor
  · have hmul0 : ¬ p.multiplier = 0 := by
      intro h; rw [h] at hmul; norm_num at hmul
    obtain ⟨n, hn, h0, hnM⟩ := retryDelay_int p b M hmul hb hM hbM k
    have h1 : (n : ℚ) ≤ (n : ℚ) * p.multiplier :=
      le_mul_of_one_le_right (by exact_mod_cast h0) hmul
    have h2 : (n : ℤ) ≤ ⌊(n : ℚ) * p.multiplier⌋ := Int.le_floor.mpr h1
    show retryDelay p k ≤ retryNextDelay p (retryDelay p k)
    rw [hn, retryNextDelay, if_neg hmul0, hM]
    refine le_min ?_ ?_
    · exact hnM
    · exact_mod_cast h2
  · exact retryGo_sleeps_bounded p fnRes pred us (by rw [hM]; positivity) _ _ _ _

/-- Witness for C6 (amended) at the repository's default policy
(maxAttempts 3, baseDelay 1000, maxDelay 30000, multiplier 2,
jitter 0.2). -/
theorem backoff_monotone_and_clamped_witness :
    retryDelay ⟨3, 1000, 30000, 2, 1/5⟩ 0 ≤ retryDelay ⟨3, 1000, 30000, 2, 1/5⟩ 1 ∧
    ((retryRun ⟨3, 1000, 30000, 2, 1/5⟩ (fun _ => some (.errObj "boom")) none (fun _ => 0)).sleeps.all
      (fun s => decide (0 ≤ s) && decide (s ≤ (⟨3, 1000, 30000, 2, 1/5⟩ : NumericPolicy).maxDelay))) = true :=
  backoff_monotone_and_clamped ⟨3, 1000, 30000, 2, 1/5⟩ 0 (fun _ => some (.errObj "boom"))
    none (fun _ => 0) 1000 30000 (by norm_num) (by norm_num) (by norm_num) (by norm_num)

/-! ## Claim C7 -/

/-- With a task that throws on every attempt, the `Retry.run` loop
makes exactly `budget` invocations and throws the most recent error. -/
theorem retryGo_allFail (p : NumericPolicy) (errs : Nat → JsVal) (us : Nat → ℚ) :
    ∀ f a d le, (retryGo p (fun k => some (errs k)) none us (f + 1) a d le).result
        = .error (wrapErr (errs (a + f))) ∧
      (retryGo p (fun k => some (errs k)) none us (f + 1) a d le).calls = f + 1 := by
  intro f
  induction f with
  | zero => intro a d le; simp [retryGo]
  | succ f ih =>
    intro a d le
    obtain ⟨i1, i2⟩ := ih (a + 1) (retryNextDelay p d) (errs a)
    have hx : a + 1 + f = a + (f + 1) := by omega
    rw [hx] at i1
    simp [retryGo, i1, i2]

/-- C7: for every task that fails on every attempt and every retry
policy with maxAttempts = N ≥ 1, the run terminates in failure carrying
the last attempt's error and the task is invoked exactly N times, never
an (N+1)th time; likewise the scheduler's own retry loop with
maxRestarts = mR invokes its always-failing task exactly mR + 1 times
and reports failure. -/
theorem retries_exhausted (p : NumericPolicy) (errs : Nat → JsVal) (us : Nat → ℚ)
    (mR : Nat) (bB : ℚ) (hN : 1 ≤ p.maxAttempts) :
    (retryRun p (fun k => some (errs k)) none us).result
      = .error (wrapErr (errs (p.maxAttempts - 1))) ∧
    (retryRun p (fun k => some (errs k)) none us).calls = p.maxAttempts ∧
    (runScheduledTask mR bB false (fun _ => false)).calls = mR + 1 ∧
    (runScheduledTask mR bB false (fun _ => false)).outcome = .failed := by
  obtain ⟨f, hf⟩ : ∃ f, p.maxAttempts = f + 1 := ⟨p.maxAttempts - 1, by omega⟩
  refine ⟨?_, ?_, ?_, ?_⟩
  · show (retryGo p (fun k => some (errs k)) none us p.maxAttempts 0 p.baseDelay
        (.rawVal "undefined")).result = _
    rw [hf]
    have h := (retryGo_allFail p errs us f 0 p.baseDelay (.rawVal "undefined")).1
    rw [h]
    have : 0 + f = f + 1 - 1 := by omega
    rw [this]
  · show (retryGo p (fun k => some (errs k)) none us p.maxAttempts 0 p.baseDelay
        (.rawVal "undefined")).calls = p.maxAttempts
    rw [hf]
    exact (retryGo_allFail p errs us f 0 p.baseDelay (.rawVal "undefined")).2
  · exact (schedGo_allFail bB mR 0 0).1
  · exact (schedGo_allFail bB mR 0 0).2

/-- Witness for C7 at maxAttempts = 2 (Retry.run) and
maxRestarts = 1 (scheduler). -/
theorem retries_exhausted_witness :
    (retryRun ⟨2, 1000, 30000, 2, 1/5⟩ (fun k => some ((fun _ => JsVal.errObj "boom") k))
        none (fun _ => 0)).result = .error (wrapErr ((fun _ => JsVal.errObj "boom") (2 - 1))) ∧
    (retryRun ⟨2, 1000, 30000, 2, 1/5⟩ (fun k => some ((fun _ => JsVal.errObj "boom") k))
        none (fun _ => 0)).calls = 2 ∧
    (runScheduledTask 1 2000 false (fun _ => false)).calls = 1 + 1 ∧
    (runScheduledTask 1 2000 false (fun _ => false)).outcome = .failed :=
  retries_exhausted ⟨2, 1000, 30000, 2, 1/5⟩ (fun _ => JsVal.errObj "boom") (fun _ => 0)
    1 2000 (by norm_num)

/-! ## Claim C10 -/

/-- When the attempt at relative index k fails with a non-retryable
error (after k retryable failures), the loop exits at once: k + 1
invocations, k backoff sleeps (none after the non-retryable failure),
and the wrapped error is thrown. -/
theorem retryGo_nonretryable (p : NumericPolicy) (es : Nat → JsVal) (g : JsVal → Bool)
    (us : Nat → ℚ) :
    ∀ k f a d le, k + 1 ≤ f →
      (∀ j, j < k → g (es (a + j)) = true) → g (es (a + k)) = false →
      (retryGo p (fun i => some (es i)) (some g) us f a d le).result
        = .error (wrapErr (es (a + k))) ∧
      (retryGo p (fun i => some (es i)) (some g) us f a d le).calls = k + 1 ∧
      (retryGo p (fun i => some (es i)) (some g) us f a d le).sleeps.length = k := by
  intro k
  induction k with
  | zero =>
    intro f a d le hf hpre hstop
    rw [show a + 0 = a from rfl] at hstop
    cases f with
    | zero => omega
    | succ f0 =>
      cases f0 with
      | zero => simp [retryGo, hstop]
      | succ f1 => simp [retryGo, hstop]
  | succ k ih =>
    intro f a d le hf hpre hstop
    cases f with
    | zero => omega
    | succ f0 =>
      cases f0 with
      | zero => omega
      | succ f1 =>
        have h0 : g (es a) = true := by
          have h := hpre 0 (by omega)
          rwa [show a + 0 = a from rfl] at h
        have hrec := ih (f1 + 1) (a + 1) (retryNextDelay p d) (es a) (by omega)
          (fun j hj => by
            have h := hpre (j + 1) (by omega)
            have hx : a + (j + 1) = a + 1 + j := by omega
            rwa [hx] at h)
          (by
            have hx : a + 1 + k = a + (k + 1) := by omega
            rw [hx]
            exact hstop)
        obtain ⟨r1, r2, r3⟩ := hrec
        have hx : a + 1 + k = a + (k + 1) := by omega
        rw [hx] at r1
        simp [retryGo, h0, r1, r2, r3]

/-- C10: when `Retry.run` is given an isRetryable predicate and attempt
k + 1 fails with an error the predicate rejects (all earlier failures
being retryable), the loop exits immediately — no backoff delay is
awaited after that failure, no further attempt is made, and the error
is rethrown (wrapped in an Error if it was not one). -/
theorem nonretryable_stops (p : NumericPolicy) (es : Nat → JsVal) (g : JsVal → Bool)
    (us : Nat → ℚ) (k : Nat) (hk : k < p.maxAttempts)
    (hpre : ∀ j, j < k → g (es j) = true) (hstop : g (es k) = false) :
    (retryRun p (fun i => some (es i)) (some g) us).result = .error (wrapErr (es k)) ∧
    (retryRun p (fun i => some (es i)) (some g) us).calls = k + 1 ∧
    (retryRun p (fun i => some (es i)) (some g) us).sleeps.length = k := by
  have h := retryGo_nonretryable p es g us k p.maxAttempts 0 p.baseDelay (.rawVal "undefined")
    (by omega) (fun j hj => by simpa using hpre j hj) (by simpa using hstop)
  simpa using h

/-- Witness for C10: first failure retryable (an Error object), second
failure a non-Error value the predicate rejects — the run stops after
2 invocations and 1 sleep, rethrowing the value wrapped as an Error. -/
theorem nonretryable_stops_witness :
    (retryRun ⟨3, 1000, 30000, 2, 1/5⟩
        (fun i => some ((fun i => if i = 0 then JsVal.errObj "transient" else JsVal.rawVal "fatal") i))
        (some (fun e => match e with | .errObj _ => true | .rawVal _ => false))
        (fun _ => 0)).result = .error (JsVal.errObj "fatal") ∧
    (retryRun ⟨3, 1000, 30000, 2, 1/5⟩
        (fun i => some ((fun i => if i = 0 then JsVal.errObj "transient" else JsVal.rawVal "fatal") i))
        (some (fun e => match e with | .errObj _ => true | .rawVal _ => false))
        (fun _ => 0)).calls = 1 + 1 ∧
    (retryRun ⟨3, 1000, 30000, 2, 1/5⟩
        (fun i => some ((fun i => if i = 0 then JsVal.errObj "transient" else JsVal.rawVal "fatal") i))
        (some (fun e => match e with | .errObj _ => true | .rawVal _ => false))
        (fun _ => 0)).sleeps.length = 1 :=
  nonretryable_stops ⟨3, 1000, 30000, 2, 1/5⟩
    (fun i => if i = 0 then JsVal.errObj "transient" else JsVal.rawVal "fatal")
    (fun e => match e with | .errObj _ => true | .rawVal _ => false)
    (fun _ => 0) 1 (by norm_num) (by decide) (by decide)

end MSRW
